import Mathlib

/-!
Verification of the loan-tracking dashboard (src/app.py) against its
specification.  The tables are modelled as lists of typed rows, dates as
proleptic Gregorian ordinals (the value of Python date.toordinal, so that
ordinal 1 is 0001-01-01, a Monday) or as year/month/day triples where the
cell-level parsing behaviour is at stake.
-/

namespace Prestamos

/-- Python date.weekday: 0 = Monday .. 6 = Sunday. Ordinal 1 is a Monday,
so the weekday of ordinal d is (d - 1) mod 7. -/
def weekday (d : Int) : Int := (d - 1) % 7

/-- Embeds get_week_start from src/app.py: d - timedelta(days=d.weekday()). -/
def get_week_start (d : Int) : Int := d - weekday d

/-- Embeds get_week_end_from_start from src/app.py: week_start + timedelta(days=6). -/
def get_week_end_from_start (ws : Int) : Int := ws + 6

/-- Sunday anchor of a date as this variant computes it: the week end derived
from the week start of the date. -/
def sunday_week_end (d : Int) : Int := get_week_end_from_start (get_week_start d)

/-- C6: for every date d, week-start(d) = d minus the weekday index of d,
week-start(d) is a Monday, and week-start(d) ≤ d ≤ week-start(d) + 6; the week
end derived from a week start is exactly week start + 6 days. -/
theorem week_start_monday_window (d : Int) :
    get_week_start d = d - weekday d
    ∧ weekday (get_week_start d) = 0
    ∧ get_week_start d ≤ d
    ∧ d ≤ get_week_start d + 6
    ∧ ∀ ws : Int, get_week_end_from_start ws = ws + 6 := by
  refine ⟨rfl, ?_, ?_, ?_, fun ws => rfl⟩
  · simp only [get_week_start, weekday]
    omega
  · simp only [get_week_start, weekday]
    omega
  · simp only [get_week_start, weekday]
    omega

/-- C7: the Sunday-anchored week end realized by the code (week end of the week
start) equals d + (6 - weekday d), is always a Sunday, is not before d, and is
at most 6 days after d. -/
theorem sunday_week_end_spec (d : Int) :
    sunday_week_end d = d + (6 - weekday d)
    ∧ weekday (sunday_week_end d) = 6
    ∧ d ≤ sunday_week_end d
    ∧ sunday_week_end d - d ≤ 6 := by
  refine ⟨?_, ?_, ?_, ?_⟩ <;>
    simp only [sunday_week_end, get_week_end_from_start, get_week_start, weekday] <;>
    omega

/-! ## Cell-level date parsing (src/app.py, _parse_date_safe)

Python string primitives are modelled over the character list of a string
(String.data), with structural recursion so that every function evaluates
inside the kernel. -/

/-- Embeds str.strip: remove leading and trailing whitespace. -/
def pystrip (l : List Char) : List Char :=
  ((l.dropWhile Char.isWhitespace).reverse.dropWhile Char.isWhitespace).reverse

/-- Embeds str.lower on the ASCII letters that the na markers use. -/
def pylower (l : List Char) : List Char := l.map Char.toLower

/-- Embeds str.split on a one-character separator: an empty input yields one
empty field, and every occurrence of the separator opens a new field. -/
def splitOnChar (sep : Char) : List Char → List (List Char)
  | [] => [[]]
  | c :: rest =>
    match splitOnChar sep rest, decide (c = sep) with
    | r, true => [] :: r
    | [], false => [[c]]
    | t :: ts, false => (c :: t) :: ts

/-- ASCII digit test, as the strptime field patterns use it. -/
def isDigitCh (c : Char) : Bool := '0' ≤ c && c ≤ '9'

/-- Numeric value of a digit string. -/
def digitsVal (l : List Char) : Nat :=
  l.foldl (fun acc c => acc * 10 + (c.toNat - 48)) 0

/-- Calendar dates as year/month/day triples, the shape datetime.date exposes. -/
structure YMD where
  year : Nat
  month : Nat
  day : Nat
deriving DecidableEq, Repr

/-- Leap-year test of the Gregorian calendar, as datetime uses it. -/
def isLeap (y : Nat) : Bool := y % 4 == 0 && (y % 100 != 0 || y % 400 == 0)

/-- Number of days in a month, as the datetime constructor validates it. -/
def daysInMonth (y m : Nat) : Nat :=
  if m = 2 then (if isLeap y then 29 else 28)
  else if m = 4 ∨ m = 6 ∨ m = 9 ∨ m = 11 then 30
  else 31

/-- Year field of strptime: exactly four digits; the datetime constructor then
requires a year of at least 1. -/
def parseYearTok (t : List Char) : Option Nat :=
  if t.length = 4 ∧ t.all isDigitCh then some (digitsVal t) else none

/-- Two-digit-bounded numeric field of strptime (months and days): one or two
digits whose value lies between 1 and the given bound. -/
def parseNumTok (hi : Nat) (t : List Char) : Option Nat :=
  if (t.length = 1 ∨ t.length = 2) ∧ t.all isDigitCh then
    if 1 ≤ digitsVal t ∧ digitsVal t ≤ hi then some (digitsVal t) else none
  else none

/-- Validity check performed by the datetime constructor once the strptime
fields have matched. -/
def validYMD (y m d : Nat) : Bool := 1 ≤ y && d ≤ daysInMonth y m

/-- Embeds datetime.strptime(s, "%Y-%m-%d").date() where failure is None. -/
def strptimeYMD (s : List Char) : Option YMD :=
  match splitOnChar '-' s with
  | [ty, tm, td] =>
    match parseYearTok ty, parseNumTok 12 tm, parseNumTok 31 td with
    | some y, some m, some d => if validYMD y m d then some ⟨y, m, d⟩ else none
    | _, _, _ => none
  | _ => none

/-- Embeds datetime.strptime with a day-month-year format over the given
one-character separator, where failure is None. -/
def strptimeDMY (sep : Char) (s : List Char) : Option YMD :=
  match splitOnChar sep s with
  | [td, tm, ty] =>
    match parseNumTok 31 td, parseNumTok 12 tm, parseYearTok ty with
    | some d, some m, some y => if validYMD y m d then some ⟨y, m, d⟩ else none
    | _, _, _ => none
  | _ => none

/-- Python values a date cell may hold: None, a native date, a datetime
(carrying its date part), the pandas NaT marker, or a string. -/
inductive PyVal where
  | pynone : PyVal
  | pydate (d : YMD) : PyVal
  | pydatetime (d : YMD) : PyVal
  | pynat : PyVal
  | pystr (s : List Char) : PyVal
deriving DecidableEq, Repr

/-- Guard of _parse_date_safe on strings: empty after stripping, or a
case-insensitive match of nat or none. -/
def naLike (s : List Char) : Bool :=
  pystrip s == [] || pylower (pystrip s) == "nat".data || pylower (pystrip s) == "none".data

/-- Embeds _parse_date_safe from src/app.py.  The generic pd.to_datetime
fall-back (called with errors coerce, so it yields NaT instead of raising) is
a parameter, since its exact accepted language is external to the repository;
NaT is modelled as the result none. -/
def parse_date_safe (fallback : List Char → Option YMD) (x : PyVal) : Option YMD :=
  match x with
  | .pynone => none
  | .pydate d => some d
  | .pydatetime d => some d
  | .pynat => none
  | .pystr x0 =>
    let s := pystrip x0
    if s == [] || pylower s == "nat".data || pylower s == "none".data then none
    else
      match strptimeYMD s with
      | some d => some d
      | none =>
        match strptimeDMY '/' s with
        | some d => some d
        | none =>
          match strptimeDMY '-' s with
          | some d => some d
          | none => fallback s

/-- C8: date normalization is total and never errors.  Native dates and
datetimes are accepted as-is (datetimes reduced to their date), None and NaT
map to the no-value marker, na-like strings (empty, nat, none, any case) map
to the no-value marker, the three explicit formats parse with their stated
precedence, and everything else is handed to the coercing generic parse, whose
failure is again the no-value marker rather than an error. -/
theorem parse_date_safe_spec (fallback : List Char → Option YMD) :
    (∀ d : YMD, parse_date_safe fallback (.pydate d) = some d)
    ∧ (∀ d : YMD, parse_date_safe fallback (.pydatetime d) = some d)
    ∧ parse_date_safe fallback .pynone = none
    ∧ parse_date_safe fallback .pynat = none
    ∧ (∀ s : List Char, naLike s = true → parse_date_safe fallback (.pystr s) = none)
    ∧ (∀ s : List Char, naLike s = false →
        ∀ d : YMD, strptimeYMD (pystrip s) = some d →
          parse_date_safe fallback (.pystr s) = some d)
    ∧ (∀ s : List Char, naLike s = false → strptimeYMD (pystrip s) = none →
        ∀ d : YMD, strptimeDMY '/' (pystrip s) = some d →
          parse_date_safe fallback (.pystr s) = some d)
    ∧ (∀ s : List Char, naLike s = false → strptimeYMD (pystrip s) = none →
        strptimeDMY '/' (pystrip s) = none →
        ∀ d : YMD, strptimeDMY '-' (pystrip s) = some d →
          parse_date_safe fallback (.pystr s) = some d)
    ∧ (∀ s : List Char, naLike s = false → strptimeYMD (pystrip s) = none →
        strptimeDMY '/' (pystrip s) = none → strptimeDMY '-' (pystrip s) = none →
          parse_date_safe fallback (.pystr s) = fallback (pystrip s)) := by
  have hguard : ∀ s : List Char, naLike s = false →
      (pystrip s == [] || pylower (pystrip s) == "nat".data
        || pylower (pystrip s) == "none".data) = false :=
    fun _ hs => hs
  refine ⟨fun d => rfl, fun d => rfl, rfl, rfl, ?_, ?_, ?_, ?_, ?_⟩
  · intro s hs
    simp only [parse_date_safe]
    rw [show (pystrip s == [] || pylower (pystrip s) == "nat".data
      || pylower (pystrip s) == "none".data) = true from hs]
    rfl
  · intro s hs d hd
    simp only [parse_date_safe]
    rw [hguard s hs, hd]
    rfl
  · intro s hs h1 d hd
    simp only [parse_date_safe]
    rw [hguard s hs, h1, hd]
    rfl
  · intro s hs h1 h2 d hd
    simp only [parse_date_safe]
    rw [hguard s hs, h1, h2, hd]
    rfl
  · intro s hs h1 h2 h3
    simp only [parse_date_safe]
    rw [hguard s hs, h1, h2, h3]
    rfl

/-- Witness for C8 at concrete inputs: the date 2024-03-04 in each of the
three formats, an na-like cell, and an unparseable cell. -/
theorem parse_date_safe_spec_witness :
    parse_date_safe (fun _ => none) (.pydate ⟨2024, 3, 4⟩) = some ⟨2024, 3, 4⟩
    ∧ parse_date_safe (fun _ => none) (.pystr "2024-03-04".data) = some ⟨2024, 3, 4⟩
    ∧ parse_date_safe (fun _ => none) (.pystr "04/03/2024".data) = some ⟨2024, 3, 4⟩
    ∧ parse_date_safe (fun _ => none) (.pystr "04-03-2024".data) = some ⟨2024, 3, 4⟩
    ∧ parse_date_safe (fun _ => none) (.pystr " NaT ".data) = none
    ∧ parse_date_safe (fun _ => none) (.pystr "gibberish".data) = none := by
  have h := parse_date_safe_spec (fun _ => none)
  refine ⟨h.1 ⟨2024, 3, 4⟩, ?_, ?_, ?_, ?_, ?_⟩
  · exact h.2.2.2.2.2.1 "2024-03-04".data (by decide) ⟨2024, 3, 4⟩ (by decide)
  · exact h.2.2.2.2.2.2.1 "04/03/2024".data (by decide) (by decide) ⟨2024, 3, 4⟩ (by decide)
  · exact h.2.2.2.2.2.2.2.1 "04-03-2024".data (by decide) (by decide) (by decide)
      ⟨2024, 3, 4⟩ (by decide)
  · exact h.2.2.2.2.1 " NaT ".data (by decide)
  · exact h.2.2.2.2.2.2.2.2 "gibberish".data (by decide) (by decide) (by decide) (by decide)

/-! ## Boolean coercion (src/app.py, _coerce_bool_series) and idempotence -/

/-- Cell of a boolean-like column: an already-coerced boolean or a raw string. -/
inductive BoolCell where
  | pybool (b : Bool) : BoolCell
  | pystr (s : List Char) : BoolCell
deriving DecidableEq, Repr

/-- Result of str applied to a Python boolean, as astype(str) yields it. -/
def pyStrOfBool (b : Bool) : List Char := if b then "True".data else "False".data

/-- Embeds the lookup dictionary of _coerce_bool_series in src/app.py. -/
def boolMapLookup (s : List Char) : Option Bool :=
  if s == "true".data then some true
  else if s == "false".data then some false
  else if s == "1".data then some true
  else if s == "0".data then some false
  else if s == "si".data then some true
  else if s == "sí".data then some true
  else if s == "no".data then some false
  else none

/-- Embeds _coerce_bool_series from src/app.py cell-wise: astype(str), strip,
lower, dictionary lookup, and fillna(False) for anything unmatched. -/
def coerce_bool_cell (x : BoolCell) : Bool :=
  let raw := match x with
    | .pybool b => pyStrOfBool b
    | .pystr s => s
  (boolMapLookup (pylower (pystrip raw))).getD false

/-- Normalized date cell as it is read back on the next normalization pass:
the no-value marker reads back as NaT, a date reads back as a native date. -/
def normDateCell : Option YMD → PyVal
  | none => .pynat
  | some d => .pydate d

/-- C9: normalization is idempotent at the cell level: re-parsing an
already-normalized date cell (a native date, or NaT for no value) returns the
same cell, and re-coercing an already-boolean cell returns the same boolean. -/
theorem normalization_idempotent (fallback : List Char → Option YMD) :
    (∀ c : Option YMD, parse_date_safe fallback (normDateCell c) = c)
    ∧ (∀ b : Bool, coerce_bool_cell (.pybool b) = b) := by
  constructor
  · intro c
    cases c <;> rfl
  · intro b
    cases b <;> decide

/-! ## Player table (src/app.py, upsert_jugador / baja_jugador_soft /
eliminar_jugador_hard)

A player row carries exactly the required jugadores columns, typed as the
normalization stage leaves them: dates as optional YMD, booleans as Bool,
everything else as strings. -/

/-- Row of the jugadores table, one field per required column. -/
structure JugRow where
  jugador_id : String
  nombre : String
  puesto : String
  fecha_nacimiento : Option YMD
  pais_prestamo : String
  division_prestamo : String
  club_prestamo : String
  opcion_compra : Bool
  posibilidad_repesca : Bool
  fecha_retorno : Option YMD
  fin_contrato_aaaj : Option YMD
  estado : String
  observaciones : String
  created_at : String
  updated_at : String
deriving DecidableEq, Repr

/-- Payload built by the create/edit forms in src/app.py: the twelve editable
fields, always all present. -/
structure JugPayload where
  nombre : String
  puesto : String
  fecha_nacimiento : YMD
  pais_prestamo : String
  division_prestamo : String
  club_prestamo : String
  opcion_compra : Bool
  posibilidad_repesca : Bool
  fecha_retorno : YMD
  fin_contrato_aaaj : YMD
  estado : String
  observaciones : String
deriving DecidableEq, Repr

/-- Field-by-field application of the payload onto an existing row, as the
masked column assignments of upsert_jugador perform it. -/
def applyPayload (p : JugPayload) (r : JugRow) : JugRow :=
  { r with
    nombre := p.nombre
    puesto := p.puesto
    fecha_nacimiento := some p.fecha_nacimiento
    pais_prestamo := p.pais_prestamo
    division_prestamo := p.division_prestamo
    club_prestamo := p.club_prestamo
    opcion_compra := p.opcion_compra
    posibilidad_repesca := p.posibilidad_repesca
    fecha_retorno := some p.fecha_retorno
    fin_contrato_aaaj := some p.fin_contrato_aaaj
    estado := p.estado
    observaciones := p.observaciones }

/-- Fresh row appended by upsert_jugador when the identifier is new: defaults
overwritten by the payload, then identifier and both timestamps. -/
def newJugRow (jid : String) (p : JugPayload) (now : String) : JugRow :=
  { jugador_id := jid
    nombre := p.nombre
    puesto := p.puesto
    fecha_nacimiento := some p.fecha_nacimiento
    pais_prestamo := p.pais_prestamo
    division_prestamo := p.division_prestamo
    club_prestamo := p.club_prestamo
    opcion_compra := p.opcion_compra
    posibilidad_repesca := p.posibilidad_repesca
    fecha_retorno := some p.fecha_retorno
    fin_contrato_aaaj := some p.fin_contrato_aaaj
    estado := p.estado
    observaciones := p.observaciones
    created_at := now
    updated_at := now }

/-- Embeds upsert_jugador from src/app.py: update in place (payload fields
plus update timestamp) when the identifier exists, append a fresh row
otherwise.  The typed row structure carries exactly the required columns, so
the final column-completion loop of the source is inherent here. -/
def upsert_jugador (df : List JugRow) (jid : String) (p : JugPayload)
    (now : String) : List JugRow :=
  if df.any (fun r => r.jugador_id == jid) then
    df.map (fun r =>
      if r.jugador_id == jid then { applyPayload p r with updated_at := now } else r)
  else df ++ [newJugRow jid p now]

/-- Observations text written by baja_jugador_soft when a reason is given:
a bracketed note, appended after a newline when prior notes exist. -/
def bajaObs (obs_old : String) (motivo : String) : String :=
  let add := "[Baja] " ++ String.mk (pystrip motivo.data)
  if obs_old ≠ "" then String.mk (pystrip (obs_old ++ "\n" ++ add).data) else add

/-- Embeds baja_jugador_soft from src/app.py: when the identifier is absent
the table is returned unchanged; otherwise the matched rows get the
Rescindido state, optionally the reason note (built from the observations of
the first matched row, as the mask assignment of the source does), and the
update timestamp. -/
def baja_jugador_soft (df : List JugRow) (jid : String) (motivo : String)
    (now : String) : List JugRow :=
  if df.any (fun r => r.jugador_id == jid) then
    let obs_old := ((df.find? (fun r => r.jugador_id == jid)).map JugRow.observaciones).getD ""
    df.map (fun r =>
      if r.jugador_id == jid then
        let r1 : JugRow := { r with estado := "Rescindido" }
        let r2 : JugRow :=
          if pystrip motivo.data == [] then r1
          else { r1 with observaciones := bajaObs obs_old motivo }
        { r2 with updated_at := now }
      else r)
  else df

/-- Helper: mapping a guarded update over rows none of which satisfy the
guard changes nothing. -/
theorem map_if_guard_false {α : Type} (f : α → α) (q : α → Bool) (l : List α)
    (h : ∀ a ∈ l, q a = false) :
    l.map (fun a => if q a then f a else a) = l := by
  induction l with
  | nil => rfl
  | cons x xs ih =>
    simp only [List.map_cons]
    rw [h x (List.mem_cons_self x xs)]
    simp only [Bool.false_eq_true, if_false]
    rw [ih (fun a ha => h a (List.mem_cons_of_mem x ha))]

/-- Helper: a table with no row for the identifier fails the existence test. -/
theorem any_eq_false_of_fresh (df : List JugRow) (jid : String)
    (hfresh : ∀ r ∈ df, r.jugador_id ≠ jid) :
    df.any (fun r => r.jugador_id == jid) = false := by
  rw [List.any_eq_false]
  intro r hr
  simp only [beq_iff_eq]
  exact hfresh r hr

/-- Concrete player row used by the witnesses: an unrelated player. -/
def sampleOtherJug : JugRow :=
  { jugador_id := "j9", nombre := "Otro", puesto := "Delantero",
    fecha_nacimiento := none, pais_prestamo := "", division_prestamo := "",
    club_prestamo := "", opcion_compra := false, posibilidad_repesca := false,
    fecha_retorno := none, fin_contrato_aaaj := none, estado := "Activo",
    observaciones := "", created_at := "t0", updated_at := "t0" }

/-- Concrete payload used by the witnesses: the first submission. -/
def samplePayload1 : JugPayload :=
  { nombre := "Ana López", puesto := "Arquero", fecha_nacimiento := ⟨2000, 1, 1⟩,
    pais_prestamo := "Chile", division_prestamo := "1° división",
    club_prestamo := "Club A", opcion_compra := false, posibilidad_repesca := false,
    fecha_retorno := ⟨2025, 6, 30⟩, fin_contrato_aaaj := ⟨2026, 6, 30⟩,
    estado := "Activo", observaciones := "" }

/-- Concrete payload used by the witnesses: the edit changing the club. -/
def samplePayload2 : JugPayload :=
  { samplePayload1 with club_prestamo := "Club B" }

/-- C3: upserting a new player then upserting again with the same identifier
and another payload appends exactly one row whose identifier and creation
timestamp are preserved, whose payload fields and update timestamp come from
the second call, and leaves every pre-existing row unchanged. -/
theorem upsert_jugador_roundtrip (df : List JugRow) (jid : String)
    (p1 p2 : JugPayload) (now1 now2 : String)
    (hfresh : ∀ r ∈ df, r.jugador_id ≠ jid) :
    upsert_jugador df jid p1 now1 = df ++ [newJugRow jid p1 now1]
    ∧ upsert_jugador (upsert_jugador df jid p1 now1) jid p2 now2
        = df ++ [{ applyPayload p2 (newJugRow jid p1 now1) with updated_at := now2 }]
    ∧ ({ applyPayload p2 (newJugRow jid p1 now1) with updated_at := now2 }).jugador_id = jid
    ∧ ({ applyPayload p2 (newJugRow jid p1 now1) with updated_at := now2 }).created_at = now1 := by
  have hany : df.any (fun r => r.jugador_id == jid) = false :=
    any_eq_false_of_fresh df jid hfresh
  have h1 : upsert_jugador df jid p1 now1 = df ++ [newJugRow jid p1 now1] := by
    simp only [upsert_jugador, hany]
    rfl
  refine ⟨h1, ?_, rfl, rfl⟩
  rw [h1]
  have hany2 : (df ++ [newJugRow jid p1 now1]).any (fun r => r.jugador_id == jid) = true := by
    simp [List.any_append, newJugRow]
  simp only [upsert_jugador, hany2, if_true, List.map_append]
  rw [map_if_guard_false _ _ df (fun r hr => by simp [hfresh r hr])]
  simp [newJugRow]

/-- Witness for C3 at a concrete table: one unrelated row, a fresh insert and
an update changing the club. -/
theorem upsert_jugador_roundtrip_witness :
    upsert_jugador
        (upsert_jugador [sampleOtherJug] "j1" samplePayload1 "t1") "j1" samplePayload2 "t2"
      = [sampleOtherJug,
          { applyPayload samplePayload2 (newJugRow "j1" samplePayload1 "t1") with
            updated_at := "t2" }]
    ∧ ({ applyPayload samplePayload2 (newJugRow "j1" samplePayload1 "t1") with
          updated_at := "t2" }).created_at = "t1" := by
  have h := upsert_jugador_roundtrip [sampleOtherJug] "j1" samplePayload1 samplePayload2
    "t1" "t2" (by intro r hr; simp at hr; subst hr; decide)
  exact ⟨by rw [h.2.1]; rfl, h.2.2.2⟩

/-- C10: soft delete on an absent identifier returns the table unchanged, and
with an empty or whitespace-only reason only the lifecycle state and the
update timestamp of the matched row change, the observations staying as they
were. -/
theorem baja_jugador_soft_spec (df : List JugRow) (jid motivo now : String) :
    ((∀ r ∈ df, r.jugador_id ≠ jid) → baja_jugador_soft df jid motivo now = df)
    ∧ (pystrip motivo.data = [] →
        baja_jugador_soft df jid motivo now
          = df.map (fun r =>
              if r.jugador_id == jid
              then { r with estado := "Rescindido", updated_at := now } else r)) := by
  constructor
  · intro hfresh
    simp only [baja_jugador_soft, any_eq_false_of_fresh df jid hfresh]
    rfl
  · intro hm
    by_cases hany : df.any (fun r => r.jugador_id == jid) = true
    · simp only [baja_jugador_soft, hany, if_true, hm]
      rfl
    · have hany' : df.any (fun r => r.jugador_id == jid) = false :=
        Bool.eq_false_iff.mpr hany
      simp only [baja_jugador_soft, hany', Bool.false_eq_true, if_false]
      rw [map_if_guard_false
        (fun r => { r with estado := "Rescindido", updated_at := now })
        (fun r => r.jugador_id == jid) df (fun r hr => by
          have := List.any_eq_false.mp hany' r hr
          simpa using this)]

/-- Witness for C10: a one-row table, once with an absent identifier and once
with a present identifier and an empty reason. -/
theorem baja_jugador_soft_spec_witness :
    baja_jugador_soft [sampleOtherJug] "zz" "motivo" "t1" = [sampleOtherJug]
    ∧ baja_jugador_soft [sampleOtherJug] "j9" "" "t1"
        = [{ sampleOtherJug with estado := "Rescindido", updated_at := "t1" }] := by
  constructor
  · exact (baja_jugador_soft_spec [sampleOtherJug] "zz" "motivo" "t1").1
      (by intro r hr; simp at hr; subst hr; decide)
  · rw [(baja_jugador_soft_spec [sampleOtherJug] "j9" "" "t1").2 (by decide)]
    decide

/-! ## Weekly log and reports tables -/

/-- Row of the seguimiento table, one field per required column, typed as the
normalization stage leaves them: week dates as optional day ordinals, stats
as integers. -/
structure SegRow where
  registro_id : String
  jugador_id : String
  week_start : Option Int
  week_end : Option Int
  partidos : Int
  minutos : Int
  goles_marcados : Int
  goles_encajados : Int
  amarillas : Int
  rojas : Int
  incidencias : String
  created_at : String
  updated_at : String
deriving DecidableEq, Repr

/-- Row of the reportes table, one field per required column. -/
structure RepRow where
  reporte_id : String
  jugador_id : String
  titulo : String
  fecha_reporte : Option YMD
  fecha_creacion : Option String
  contenido : String
  created_at : String
  updated_at : String
deriving DecidableEq, Repr

/-- Embeds eliminar_jugador_hard from src/app.py: drop from all three tables
every row whose player identifier equals the given one. -/
def eliminar_jugador_hard (df_j : List JugRow) (df_s : List SegRow)
    (df_r : List RepRow) (jid : String) :
    List JugRow × List SegRow × List RepRow :=
  (df_j.filter (fun r => !(r.jugador_id == jid)),
   df_s.filter (fun r => !(r.jugador_id == jid)),
   df_r.filter (fun r => !(r.jugador_id == jid)))

/-- C5: hard delete removes exactly the rows of the given player from the
player, weekly-log and report tables: each output is a sublist of its input
(rows for other players are kept unchanged and in order), membership in the
output is membership in the input plus a different player identifier. -/
theorem eliminar_jugador_hard_spec (df_j : List JugRow) (df_s : List SegRow)
    (df_r : List RepRow) (jid : String) :
    ((eliminar_jugador_hard df_j df_s df_r jid).1.Sublist df_j
      ∧ ∀ r : JugRow, r ∈ (eliminar_jugador_hard df_j df_s df_r jid).1
          ↔ (r ∈ df_j ∧ r.jugador_id ≠ jid))
    ∧ ((eliminar_jugador_hard df_j df_s df_r jid).2.1.Sublist df_s
      ∧ ∀ r : SegRow, r ∈ (eliminar_jugador_hard df_j df_s df_r jid).2.1
          ↔ (r ∈ df_s ∧ r.jugador_id ≠ jid))
    ∧ ((eliminar_jugador_hard df_j df_s df_r jid).2.2.Sublist df_r
      ∧ ∀ r : RepRow, r ∈ (eliminar_jugador_hard df_j df_s df_r jid).2.2
          ↔ (r ∈ df_r ∧ r.jugador_id ≠ jid)) := by
  refine ⟨⟨List.filter_sublist df_j, ?_⟩, ⟨List.filter_sublist df_s, ?_⟩,
    ⟨List.filter_sublist df_r, ?_⟩⟩ <;>
    intro r <;>
    simp [eliminar_jugador_hard, List.mem_filter]

/-- Witness for C5: two players, one weekly row and one report each; deleting
player j1 keeps exactly the rows of player j9. -/
theorem eliminar_jugador_hard_spec_witness :
    (eliminar_jugador_hard
        [{ sampleOtherJug with jugador_id := "j1" }, sampleOtherJug]
        [{ registro_id := "r1", jugador_id := "j1", week_start := some 738949,
           week_end := some 738955, partidos := 1, minutos := 90,
           goles_marcados := 0, goles_encajados := 2, amarillas := 0, rojas := 0,
           incidencias := "", created_at := "t1", updated_at := "t1" },
         { registro_id := "r2", jugador_id := "j9", week_start := some 738949,
           week_end := some 738955, partidos := 1, minutos := 45,
           goles_marcados := 1, goles_encajados := 0, amarillas := 0, rojas := 0,
           incidencias := "", created_at := "t1", updated_at := "t1" }]
        [{ reporte_id := "p1", jugador_id := "j1", titulo := "Informe",
           fecha_reporte := some ⟨2024, 3, 4⟩, fecha_creacion := none,
           contenido := "texto", created_at := "t1", updated_at := "t1" }]
        "j1").1 = [sampleOtherJug]
    ∧ (eliminar_jugador_hard
        [{ sampleOtherJug with jugador_id := "j1" }, sampleOtherJug] [] [] "j1").2.1 = []
    ∧ ([sampleOtherJug] : List JugRow).Sublist
        [{ sampleOtherJug with jugador_id := "j1" }, sampleOtherJug] := by
  refine ⟨by decide, by decide, ?_⟩
  have h := (eliminar_jugador_hard_spec
    [{ sampleOtherJug with jugador_id := "j1" }, sampleOtherJug] [] [] "j1").1.1
  have he : (eliminar_jugador_hard
      [{ sampleOtherJug with jugador_id := "j1" }, sampleOtherJug] [] [] "j1").1
      = [sampleOtherJug] := by decide
  rw [he] at h
  exact h

/-! ## Weekly entry submission (src/app.py, Carga Semanal page) -/

/-- Embeds the duplicate-week existence check of the Carga Semanal submit
handler: some row already has this player identifier and this week start. -/
def duplicateWeek (df_s : List SegRow) (jid : String) (ws : Int) : Bool :=
  df_s.any (fun r => r.jugador_id == jid && r.week_start == some ws)

/-- Row built by the submit handler: generated identifier, chosen week start,
derived week end (start + 6), the captured stats and both timestamps. -/
def mkSegRow (rid jid : String) (ws partidos minutos gm ge am ro : Int)
    (inc now : String) : SegRow :=
  { registro_id := rid, jugador_id := jid, week_start := some ws,
    week_end := some (get_week_end_from_start ws), partidos := partidos,
    minutos := minutos, goles_marcados := gm, goles_encajados := ge,
    amarillas := am, rojas := ro, incidencias := inc,
    created_at := now, updated_at := now }

/-- Embeds the submit branch of the Carga Semanal form: reject (no write)
when a duplicate week exists, otherwise append the new row and save. -/
def form_carga_semanal_submit (df_s : List SegRow) (jid : String) (ws : Int)
    (rid : String) (partidos minutos gm ge am ro : Int) (inc now : String) :
    Option (List SegRow) :=
  if duplicateWeek df_s jid ws then none
  else some (df_s ++ [mkSegRow rid jid ws partidos minutos gm ge am ro inc now])

/-- Rows of the table for one (player identifier, week start) pair. -/
def pairRows (df_s : List SegRow) (jid : String) (ws : Int) : List SegRow :=
  df_s.filter (fun r => r.jugador_id == jid && r.week_start == some ws)

/-- Helper: a failed duplicate check means the pair has no rows at all. -/
theorem pairRows_eq_nil_of_not_dup (df_s : List SegRow) (jid : String) (ws : Int)
    (h : duplicateWeek df_s jid ws = false) : pairRows df_s jid ws = [] := by
  rw [duplicateWeek, List.any_eq_false] at h
  rw [pairRows, List.filter_eq_nil_iff]
  intro r hr
  simpa using h r hr

/-- C2: the submit handler signals a duplicate exactly when the pair already
has a row; on a duplicate nothing is appended (no new table is saved), and
otherwise the new row with the generated identifier and timestamps is
appended at the end; consequently a table with at most one row per pair keeps
that invariant. -/
theorem append_weekly_entry_spec (df_s : List SegRow) (jid : String) (ws : Int)
    (rid : String) (partidos minutos gm ge am ro : Int) (inc now : String) :
    (duplicateWeek df_s jid ws = true ↔ 1 ≤ (pairRows df_s jid ws).length)
    ∧ (duplicateWeek df_s jid ws = true →
        form_carga_semanal_submit df_s jid ws rid partidos minutos gm ge am ro inc now
          = none)
    ∧ (duplicateWeek df_s jid ws = false →
        form_carga_semanal_submit df_s jid ws rid partidos minutos gm ge am ro inc now
          = some (df_s ++ [mkSegRow rid jid ws partidos minutos gm ge am ro inc now]))
    ∧ ((∀ j w, (pairRows df_s j w).length ≤ 1) →
        ∀ out, form_carga_semanal_submit df_s jid ws rid partidos minutos gm ge am ro
            inc now = some out →
          ∀ j w, (pairRows out j w).length ≤ 1) := by
  refine ⟨?_, ?_, ?_, ?_⟩
  · constructor
    · intro h
      rw [duplicateWeek, List.any_eq_true] at h
      obtain ⟨r, hr, hpr⟩ := h
      have : r ∈ pairRows df_s jid ws := List.mem_filter.mpr ⟨hr, hpr⟩
      calc 1 = [r].length := rfl
        _ ≤ (pairRows df_s jid ws).length := by
            exact List.length_pos.mpr (List.ne_nil_of_mem this)
    · intro h
      have hne : pairRows df_s jid ws ≠ [] := by
        intro hnil
        rw [hnil] at h
        simp at h
      obtain ⟨r, hr⟩ := List.exists_mem_of_ne_nil _ hne
      rw [pairRows, List.mem_filter] at hr
      rw [duplicateWeek, List.any_eq_true]
      exact ⟨r, hr.1, hr.2⟩
  · intro h
    simp only [form_carga_semanal_submit, h]
    rfl
  · intro h
    simp only [form_carga_semanal_submit, h]
    rfl
  · intro hinv out hout j w
    cases hd : duplicateWeek df_s jid ws with
    | true =>
      rw [form_carga_semanal_submit, hd] at hout
      simp at hout
    | false =>
      rw [form_carga_semanal_submit, hd] at hout
      simp only [Bool.false_eq_true, if_false, Option.some.injEq] at hout
      subst hout
      have hsplit :
          pairRows (df_s ++ [mkSegRow rid jid ws partidos minutos gm ge am ro inc now]) j w
            = pairRows df_s j w
              ++ pairRows [mkSegRow rid jid ws partidos minutos gm ge am ro inc now] j w :=
        List.filter_append _ _
      rw [hsplit, List.length_append]
      by_cases hm :
          ((mkSegRow rid jid ws partidos minutos gm ge am ro inc now).jugador_id == j
            && (mkSegRow rid jid ws partidos minutos gm ge am ro inc now).week_start
              == some w) = true
      · have hj : jid = j ∧ ws = w := by simpa [mkSegRow] using hm
        have h0 : pairRows df_s j w = [] := by
          rw [← hj.1, ← hj.2]
          exact pairRows_eq_nil_of_not_dup df_s jid ws hd
        rw [h0]
        simp [pairRows, List.filter_cons, hm]
      · have h1 :
            pairRows [mkSegRow rid jid ws partidos minutos gm ge am ro inc now] j w = [] := by
          simp only [pairRows, List.filter_cons, hm]
          rfl
        rw [h1]
        simpa using hinv j w

/-- Witness for C2: submitting a week for player X on Monday 2024-03-04
(ordinal 738949) succeeds on an empty table and is rejected on the second
attempt, the table keeping exactly one row for the pair. -/
theorem append_weekly_entry_spec_witness :
    form_carga_semanal_submit [] "X" 738949 "r1" 1 90 0 2 0 0 "nota" "t1"
      = some [mkSegRow "r1" "X" 738949 1 90 0 2 0 0 "nota" "t1"]
    ∧ form_carga_semanal_submit [mkSegRow "r1" "X" 738949 1 90 0 2 0 0 "nota" "t1"]
        "X" 738949 "r2" 1 80 0 1 0 0 "" "t2" = none
    ∧ (pairRows [mkSegRow "r1" "X" 738949 1 90 0 2 0 0 "nota" "t1"] "X" 738949).length
        = 1 := by
  refine ⟨?_, ?_, by decide⟩
  · exact (append_weekly_entry_spec [] "X" 738949 "r1" 1 90 0 2 0 0 "nota" "t1").2.2.1
      (by decide)
  · exact (append_weekly_entry_spec [mkSegRow "r1" "X" 738949 1 90 0 2 0 0 "nota" "t1"]
      "X" 738949 "r2" 1 80 0 1 0 0 "" "t2").2.1 (by decide)

/-! ## Schema reconciliation (src/app.py, _get_or_create_worksheet) -/

/-- Value that the rebuilt table places in a row under a required column
name: the cell stored under that name in the old header when the name exists
there, the empty string otherwise. -/
def cellValue (header : List String) (row : List String) (c : String) : String :=
  if c ∈ header then row.getD (header.indexOf c) "" else ""

/-- Embeds _get_or_create_worksheet from src/app.py as a function on the
worksheet contents (header row plus data rows, none for a missing sheet):
a missing or empty sheet gets the required header written; a sheet whose
header differs from the required list is rebuilt, keeping values by column
name, filling absent required columns with the empty string and dropping the
rest; a sheet whose header already matches is left untouched. -/
def reconcileTable (cols : List String) : Option (List (List String)) → List (List String)
  | none => [cols]
  | some [] => [cols]
  | some (header :: rows) =>
    if header = cols then header :: rows
    else cols :: rows.map (fun r => cols.map (cellValue header r))

/-- Cell of a table at a row and column index, empty when out of range. -/
def tableCell (t : List (List String)) (i j : Nat) : String := (t.getD i []).getD j ""

/-- Helper: indexing a mapped list below its length maps the indexed entry. -/
theorem getD_map_of_lt {α β : Type} (l : List α) (f : α → β) (i : Nat)
    (d : α) (e : β) (hi : i < l.length) : (l.map f).getD i e = f (l.getD i d) := by
  rw [List.getD_eq_getElem?_getD, List.getElem?_map, List.getElem?_eq_getElem hi]
  rw [List.getD_eq_getElem?_getD, List.getElem?_eq_getElem hi]
  rfl

/-- Helper: the entry of a mapped list under the index of a member. -/
theorem getD_map_indexOf (cols : List String) (g : String → String) (c : String)
    (hc : c ∈ cols) : (cols.map g).getD (cols.indexOf c) "" = g c := by
  have hidx : cols.indexOf c < cols.length := List.indexOf_lt_length.mpr hc
  rw [List.getD_eq_getElem?_getD, List.getElem?_map]
  rw [List.getElem?_eq_getElem hidx]
  simp [List.getElem_indexOf hidx]

/-- C1: reconciling a table against the required column list yields the
required list as header; a missing or empty table gets exactly the header
row; for an existing non-empty table every data row is kept (one output row
per input row, each of the required width), the cell under a column name
shared by the old header moves with its row, and a required column absent
from the old header reads as the empty string.  Columns outside the required
list are gone, since every output row has exactly the required columns. -/
theorem get_or_create_worksheet_spec (cols : List String)
    (vals : Option (List (List String))) :
    (reconcileTable cols vals).head? = some cols
    ∧ reconcileTable cols none = [cols]
    ∧ reconcileTable cols (some []) = [cols]
    ∧ ∀ header rows, vals = some (header :: rows) →
        header.Nodup → cols.Nodup →
        (∀ r ∈ rows, r.length = header.length) →
        ((reconcileTable cols vals).length = rows.length + 1
          ∧ (∀ r ∈ (reconcileTable cols vals).tail, r.length = cols.length)
          ∧ ∀ i c, i < rows.length → c ∈ cols →
              tableCell (reconcileTable cols vals) (i + 1) (cols.indexOf c)
                = if c ∈ header
                  then tableCell (header :: rows) (i + 1) (header.indexOf c)
                  else "") := by
  refine ⟨?_, rfl, rfl, ?_⟩
  · match vals with
    | none => rfl
    | some [] => rfl
    | some (header :: rows) =>
      simp only [reconcileTable]
      split
      · rename_i h
        rw [h]
        rfl
      · rfl
  · intro header rows hv hnodH hnodC hlen
    subst hv
    by_cases hEq : header = cols
    · have hres : reconcileTable cols (some (header :: rows)) = header :: rows := by
        simp only [reconcileTable, if_pos hEq]
      rw [hres]
      subst hEq
      refine ⟨rfl, ?_, ?_⟩
      · intro r hr
        exact hlen r hr
      · intro i c hi hc
        rw [if_pos hc]
    · have hres : reconcileTable cols (some (header :: rows))
          = cols :: rows.map (fun r => cols.map (cellValue header r)) := by
        simp only [reconcileTable, if_neg hEq]
      rw [hres]
      refine ⟨by simp, ?_, ?_⟩
      · intro r hr
        simp only [List.tail_cons, List.mem_map] at hr
        obtain ⟨r0, _, hr0⟩ := hr
        rw [← hr0]
        simp
      · intro i c hi hc
        simp only [tableCell, List.getD_cons_succ]
        rw [getD_map_of_lt rows _ i [] [] hi]
        rw [getD_map_indexOf cols _ c hc]
        rfl

/-- Witness for C1 on a concrete drifted sheet: old header [b, a, zz], required
[a, b, c]; values move with their column names, the new column c is empty, and
the dropped column zz is gone. -/
theorem get_or_create_worksheet_spec_witness :
    reconcileTable ["a", "b", "c"] (some [["b", "a", "zz"], ["1", "2", "3"]])
      = [["a", "b", "c"], ["2", "1", ""]]
    ∧ reconcileTable ["a", "b", "c"] none = [["a", "b", "c"]]
    ∧ tableCell (reconcileTable ["a", "b", "c"] (some [["b", "a", "zz"], ["1", "2", "3"]]))
        1 (["a", "b", "c"].indexOf "a")
        = tableCell [["b", "a", "zz"], ["1", "2", "3"]] 1 (["b", "a", "zz"].indexOf "a") := by
  refine ⟨by decide, (get_or_create_worksheet_spec ["a", "b", "c"] none).2.1, ?_⟩
  have h := ((get_or_create_worksheet_spec ["a", "b", "c"]
      (some [["b", "a", "zz"], ["1", "2", "3"]])).2.2.2
    ["b", "a", "zz"] [["1", "2", "3"]] rfl (by decide) (by decide)
    (by intro r hr; simp at hr; subst hr; rfl)).2.2 0 "a" (by decide) (by decide)
  rw [h]
  decide

/-! ## Aggregation (src/app.py, Tabla Acumulada page) -/

/-- Aggregate row produced by the groupby over the weekly log: the six sums
and the maximum week end. -/
structure AggRow where
  partidos_total : Int
  minutos_total : Int
  goles_total : Int
  encajados_total : Int
  amarillas_total : Int
  rojas_total : Int
  ultima_semana : Option Int
deriving DecidableEq, Repr

/-- Weekly rows belonging to one player, the group the groupby forms. -/
def entriesFor (entries : List SegRow) (jid : String) : List SegRow :=
  entries.filter (fun r => r.jugador_id == jid)

/-- Maximum of two optional dates, skipping the no-value marker as the
pandas max aggregation does. -/
def optMax : Option Int → Option Int → Option Int
  | none, b => b
  | some x, none => some x
  | some x, some y => some (max x y)

/-- Maximum week end over a column of optional dates: none when every cell is
the no-value marker. -/
def maxWeekEnd (l : List (Option Int)) : Option Int := l.foldr optMax none

/-- Embeds the agg dictionary of the Tabla Acumulada groupby: sums of the six
stat columns and the maximum week end, over one group. -/
def aggFor (entries : List SegRow) (jid : String) : AggRow :=
  { partidos_total := ((entriesFor entries jid).map SegRow.partidos).sum
    minutos_total := ((entriesFor entries jid).map SegRow.minutos).sum
    goles_total := ((entriesFor entries jid).map SegRow.goles_marcados).sum
    encajados_total := ((entriesFor entries jid).map SegRow.goles_encajados).sum
    amarillas_total := ((entriesFor entries jid).map SegRow.amarillas).sum
    rojas_total := ((entriesFor entries jid).map SegRow.rojas).sum
    ultima_semana := maxWeekEnd ((entriesFor entries jid).map SegRow.week_end) }

/-- Row of the merged base table: the player columns plus the aggregate
columns, which are null for a player with no weekly rows. -/
structure BaseRow where
  player : JugRow
  agg : Option AggRow
deriving DecidableEq, Repr

/-- Embeds the left merge of the players table with the groupby result: every
player is kept, matched by identifier, with null aggregates when the weekly
log has no row for the player. -/
def mergeLeft (players : List JugRow) (entries : List SegRow) : List BaseRow :=
  players.map (fun p =>
    { player := p
      agg := if entries.any (fun r => r.jugador_id == p.jugador_id)
             then some (aggFor entries p.jugador_id) else none })

/-- Minutes key used by the sort, after the to_numeric fillna(0) coercion of
the minutos_total column: zero for a player with null aggregates. -/
def minutosRank (b : BaseRow) : Int :=
  match b.agg with
  | some a => a.minutos_total
  | none => 0

/-- Matches key used by the sort tie-break, still nullable: pandas places the
null values last. -/
def partidosRank (b : BaseRow) : Option Int := b.agg.map AggRow.partidos_total

/-- Comparison the presentation sort uses: descending minutes, then
descending matches with nulls last. -/
def accLE (a b : BaseRow) : Bool :=
  if minutosRank b < minutosRank a then true
  else if minutosRank a < minutosRank b then false
  else match partidosRank a, partidosRank b with
    | some x, some y => decide (y ≤ x)
    | some _, none => true
    | none, some _ => false
    | none, none => true

/-- Embeds the Tabla Acumulada pipeline on the normalized tables: groupby,
left merge and the stable sort by descending total minutes with descending
total matches as tie-break. -/
def tablaAcumulada (players : List JugRow) (entries : List SegRow) : List BaseRow :=
  (mergeLeft players entries).mergeSort accLE

/-- Tie-break order on the nullable matches column, nulls last. -/
def partidosDesc (a b : BaseRow) : Prop :=
  match partidosRank a, partidosRank b with
  | some x, some y => y ≤ x
  | some _, none => True
  | none, some _ => False
  | none, none => True

/-- Presentation order: descending by total minutes, and on equal minutes
descending by total matches with nulls last. -/
def descOrden (a b : BaseRow) : Prop :=
  minutosRank b ≤ minutosRank a ∧ (minutosRank a = minutosRank b → partidosDesc a b)

/-- Helper: the boolean comparison implies the presentation order. -/
theorem accLE_imp_descOrden {a b : BaseRow} (h : accLE a b = true) : descOrden a b := by
  rw [accLE] at h
  rw [descOrden, partidosDesc]
  split at h
  · constructor
    · omega
    · intro he
      omega
  · split at h
    · exact absurd h (by simp)
    · refine ⟨by omega, fun _ => ?_⟩
      rcases hpa : partidosRank a with _ | x <;> rcases hpb : partidosRank b with _ | y <;>
        rw [hpa, hpb] at h <;> simp_all

/-- Helper: the boolean comparison is total. -/
theorem accLE_total (a b : BaseRow) : (accLE a b || accLE b a) = true := by
  rw [accLE, accLE]
  rcases hpa : partidosRank a with _ | x <;> rcases hpb : partidosRank b with _ | y <;>
    split_ifs <;> simp_all <;> omega

/-- Helper: the boolean comparison is transitive. -/
theorem accLE_trans (a b c : BaseRow)
    (hab : accLE a b = true) (hbc : accLE b c = true) : accLE a c = true := by
  rw [accLE] at hab hbc ⊢
  rcases hpa : partidosRank a with _ | x <;> rcases hpb : partidosRank b with _ | y <;>
    rcases hpc : partidosRank c with _ | z <;>
    rw [hpa, hpb] at hab <;> rw [hpb, hpc] at hbc <;>
    split_ifs at hab hbc ⊢ <;> simp_all <;> omega

/-- Helper: a null maximum means every cell is the no-value marker. -/
theorem maxWeekEnd_eq_none (l : List (Option Int)) (h : maxWeekEnd l = none) :
    ∀ o ∈ l, o = none := by
  induction l with
  | nil => intro o ho; simp at ho
  | cons x xs ih =>
    intro o ho
    rw [maxWeekEnd, List.foldr_cons] at h
    have hx : x = none ∧ xs.foldr optMax none = none := by
      rcases x with _ | v
      · exact ⟨rfl, h⟩
      · rcases hr : xs.foldr optMax none with _ | w <;> rw [hr] at h <;> simp [optMax] at h
    rcases List.mem_cons.mp ho with ho1 | ho2
    · rw [ho1]; exact hx.1
    · exact ih hx.2 o ho2

/-- Helper: a non-null maximum is attained and bounds every cell. -/
theorem maxWeekEnd_spec (l : List (Option Int)) (m : Int) (h : maxWeekEnd l = some m) :
    some m ∈ l ∧ ∀ o ∈ l, ∀ w : Int, o = some w → w ≤ m := by
  induction l generalizing m with
  | nil => simp [maxWeekEnd] at h
  | cons x xs ih =>
    rw [maxWeekEnd, List.foldr_cons] at h
    rcases hx : x with _ | v <;> rw [hx] at h
    · have := ih m h
      refine ⟨List.mem_cons_of_mem _ this.1, ?_⟩
      intro o ho w hw
      rcases List.mem_cons.mp ho with ho1 | ho2
      · rw [ho1] at hw; simp at hw
      · exact this.2 o ho2 w hw
    · rcases hr : xs.foldr optMax none with _ | mx <;> rw [hr] at h <;>
        simp only [optMax, Option.some.injEq] at h
      · subst h
        refine ⟨List.mem_cons_self _ _, ?_⟩
        intro o ho w hw
        rcases List.mem_cons.mp ho with ho1 | ho2
        · rw [ho1] at hw
          simp at hw
          omega
        · have := maxWeekEnd_eq_none xs hr o ho2
          rw [this] at hw
          simp at hw
      · subst h
        have hxs := ih mx hr
        by_cases hvm : mx ≤ v
        · rw [max_eq_left hvm]
          refine ⟨List.mem_cons_self _ _, ?_⟩
          intro o ho w hw
          rcases List.mem_cons.mp ho with ho1 | ho2
          · rw [ho1] at hw
            simp at hw
            omega
          · have := hxs.2 o ho2 w hw
            omega
        · rw [max_eq_right (by omega)]
          refine ⟨List.mem_cons_of_mem _ hxs.1, ?_⟩
          intro o ho w hw
          rcases List.mem_cons.mp ho with ho1 | ho2
          · rw [ho1] at hw
            simp at hw
            omega
          · exact hxs.2 o ho2 w hw

/-- Helper: a player without weekly rows is exactly one whose group is empty. -/
theorem entriesFor_eq_nil_iff (entries : List SegRow) (jid : String) :
    entriesFor entries jid = [] ↔ entries.any (fun r => r.jugador_id == jid) = false := by
  rw [entriesFor, List.filter_eq_nil_iff, List.any_eq_false]

/-- C4: the cumulative table is a permutation of the left merge of players
with their per-player aggregates (so every player is retained, in particular
with null aggregates when the weekly log has no row), each merged row carries
exactly the aggregate of its player (sums of the six stats and the maximum
week end, which is attained and bounds every logged week end), and the
presentation order is descending by total minutes with descending total
matches as tie-break. -/
theorem tabla_acumulada_spec (players : List JugRow) (entries : List SegRow) :
    (tablaAcumulada players entries).Perm (mergeLeft players entries)
    ∧ (tablaAcumulada players entries).Pairwise descOrden
    ∧ (mergeLeft players entries).map BaseRow.player = players
    ∧ (∀ b ∈ mergeLeft players entries,
        (b.agg = none ↔ entriesFor entries b.player.jugador_id = [])
        ∧ ∀ a, b.agg = some a → a = aggFor entries b.player.jugador_id)
    ∧ (∀ jid : String, ∀ m : Int, (aggFor entries jid).ultima_semana = some m →
        (∃ r ∈ entriesFor entries jid, r.week_end = some m)
        ∧ ∀ r ∈ entriesFor entries jid, ∀ w : Int, r.week_end = some w → w ≤ m) := by
  refine ⟨List.mergeSort_perm _ _, ?_, ?_, ?_, ?_⟩
  · exact (@List.sorted_mergeSort BaseRow accLE
      (fun a b c => accLE_trans a b c) accLE_total
      (mergeLeft players entries)).imp accLE_imp_descOrden
  · rw [mergeLeft, List.map_map]
    exact List.map_id _
  · intro b hb
    rw [mergeLeft, List.mem_map] at hb
    obtain ⟨p, _, hp⟩ := hb
    subst hp
    by_cases hany : entries.any (fun r => r.jugador_id == p.jugador_id) = true
    · simp only [hany, if_true]
      constructor
      · constructor
        · intro hnone
          simp at hnone
        · intro hnil
          rw [entriesFor_eq_nil_iff, hany] at hnil
          exact absurd hnil (by simp)
      · intro a ha
        simpa using ha.symm
    · have hany' := Bool.eq_false_iff.mpr hany
      simp only [hany', Bool.false_eq_true, if_false]
      constructor
      · simp only [true_iff]
        exact (entriesFor_eq_nil_iff entries p.jugador_id).mpr hany'
      · intro a ha
        simp at ha
  · intro jid m hm
    rw [aggFor] at hm
    have h := maxWeekEnd_spec _ m hm
    constructor
    · obtain ⟨r, hr, hrw⟩ := List.mem_map.mp h.1
      exact ⟨r, hr, hrw⟩
    · intro r hr w hw
      exact h.2 (SegRow.week_end r) (List.mem_map_of_mem _ hr) w hw

/-- Concrete goalkeeper used by the C4 witness. -/
def anaJugador : JugRow :=
  { sampleOtherJug with jugador_id := "a1", nombre := "Ana López", puesto := "Arquero" }

/-- Concrete weekly row used by the C4 witness: week of Monday 2024-03-04
(ordinal 738949), two goals conceded, none scored. -/
def anaEntry : SegRow :=
  mkSegRow "r1" "a1" 738949 1 90 0 2 0 0 "" "t1"

/-- Witness for C4 on the goalkeeper scenario: the aggregate for Ana shows
two goals conceded and zero scored, the last week is Sunday 2024-03-10
(ordinal 738955), and the merged table keeps the one player. -/
theorem tabla_acumulada_spec_witness :
    (tablaAcumulada [anaJugador] [anaEntry]).Perm (mergeLeft [anaJugador] [anaEntry])
    ∧ (mergeLeft [anaJugador] [anaEntry]).map BaseRow.player = [anaJugador]
    ∧ (aggFor [anaEntry] "a1").encajados_total = 2
    ∧ (aggFor [anaEntry] "a1").goles_total = 0
    ∧ (aggFor [anaEntry] "a1").minutos_total = 90
    ∧ (aggFor [anaEntry] "a1").ultima_semana = some 738955 := by
  have h := tabla_acumulada_spec [anaJugador] [anaEntry]
  exact ⟨h.1, h.2.2.1, by decide, by decide, by decide, by decide⟩

end Prestamos
